import Mathlib

/-!
Shallow embedding of the diagnostics/validation core of the `vscode-pddl`
extension, covering:

* `src/client/src/diagnostics/PlanValidator.ts` — `PlanValidator.analyzeOutput`,
  `PlanValidator.validatePlanAndReportDiagnostics` and the
  `PlanValidationOutcome` constructors;
* `src/client/src/diagnostics/Diagnostics.ts` — `scheduleValidation`,
  `validateAllDirty`, `getDomainFileFor`, `validateUnknownFile`;
* the `TypeObjectMap` index (implementation lives in `common/src/DomainInfo.ts`,
  outside the provided sources; modelled from the spec and its unit tests).

Strings are modelled as `List Char`; JS numbers appearing in timestamps and
tolerances are modelled as rationals (`ℚ`).
-/

/-- Convert a Lean string literal to the `List Char` representation used
throughout this development. -/
def str (s : String) : List Char := s.toList

/-- JS whitespace characters relevant to the inputs handled here
(space, tab, newline, carriage return), as used by `String.prototype.trim`
and the `\s` regex class on these outputs. -/
def isJsSpace (c : Char) : Bool := c = ' ' || c = '\t' || c = '\n' || c = '\r'

/-- JS line terminators (ECMAScript `LineTerminator`): LF, CR, LINE SEPARATOR
and PARAGRAPH SEPARATOR — the characters an unescaped regex `.` (without the
dotAll flag) does NOT match. -/
def isJsLineTerminator (c : Char) : Bool :=
  c = '\n' || c = '\r' || c = '\u2028' || c = '\u2029'

/-- `String.prototype.trim`: drop whitespace from both ends. -/
def trimChars (s : List Char) : List Char :=
  ((s.dropWhile isJsSpace).reverse.dropWhile isJsSpace).reverse

/-- `String.prototype.split('\n')`. -/
def splitLines (s : List Char) : List (List Char) :=
  s.splitOn '\n'

/-- JS `output.match(pat)` for a pattern string without regex metacharacters:
substring containment test. -/
def containsSubstr (s pat : List Char) : Bool :=
  (List.range (s.length + 1)).any (fun i => pat.isPrefixOf (s.drop i))

/-- Case-insensitive string equality, as in `a.toLowerCase() == b.toLowerCase()`. -/
def lowerEq (a b : List Char) : Bool :=
  a.map Char.toLower == b.map Char.toLower

/-- Digit run to a natural number (decimal). -/
def digitsToNat (ds : List Char) : ℕ :=
  ds.foldl (fun acc c => acc * 10 + (c.toNat - '0'.toNat)) 0

/-- JS `parseFloat` applied to a capture of the regex group `(\d+.\d+)`
(an unescaped `.` without the dotAll flag, so the middle character may be
anything except a line terminator): the capture is
`d1 ++ [c] ++ d2` with `d1`, `d2` nonempty digit runs.  `parseFloat` reads the
longest numeric prefix: a decimal point yields `d1.d2`, an exponent marker
yields `d1·10^d2`, a digit yields the whole run as an integer, and any other
character stops the parse after `d1`. -/
def captureValue (d1 : List Char) (c : Char) (d2 : List Char) : ℚ :=
  if c = '.' then
    Rat.divInt (digitsToNat d1 * 10 ^ d2.length + digitsToNat d2) (10 ^ d2.length)
  else if c = 'e' ∨ c = 'E' then
    ((digitsToNat d1 * 10 ^ digitsToNat d2 : ℕ) : ℚ)
  else if c.isDigit then
    ((digitsToNat (d1 ++ [c] ++ d2) : ℚ))
  else
    (digitsToNat d1 : ℚ)

theorem captureValue_dot (d1 d2 : List Char) :
    captureValue d1 '.' d2 =
      (digitsToNat d1 : ℚ) + (digitsToNat d2 : ℚ) / ((10 : ℚ) ^ d2.length) := by
  rw [captureValue, if_pos rfl, Rat.divInt_eq_div]
  push_cast
  rw [add_div]
  congr 1
  rw [mul_div_assoc, div_self (by positivity), mul_one]

theorem captureValue_exp (d1 d2 : List Char) :
    captureValue d1 'e' d2 = (digitsToNat d1 : ℚ) * (10 : ℚ) ^ (digitsToNat d2) := by
  rw [captureValue, if_neg (by decide), if_pos (Or.inl rfl)]
  push_cast
  ring

/-! ## Diagnostics data model (vscode `Diagnostic`, reduced to what the code uses) -/

inductive DiagnosticSeverity where
  | Error
  | Warning
  | Information
  | Hint
deriving DecidableEq, Repr

/-- vscode `Range`, as produced by `createRangeFromLine`. -/
structure VsRange where
  startLine : ℕ
  startChar : ℕ
  endLine : ℕ
  endChar : ℕ
deriving DecidableEq, Repr

structure Diagnostic where
  range : VsRange
  message : List Char
  severity : DiagnosticSeverity
deriving DecidableEq, Repr

/-- `createRangeFromLine(errorLine)` in PlanValidator.ts. -/
def createRangeFromLine (errorLine : ℕ) : VsRange :=
  ⟨errorLine, 0, errorLine, 100⟩

/-- `createDiagnostic(errorLine, error, severity)` in PlanValidator.ts. -/
def createDiagnostic (errorLine : ℕ) (error : List Char) (severity : DiagnosticSeverity) :
    Diagnostic :=
  ⟨createRangeFromLine errorLine, error, severity⟩

/-! ## Plan model -/

/-- One step of a parsed plan (`common/src/PlanStep.ts` surface used here). -/
structure PlanStep where
  startTime : ℚ
  lineIndex : ℕ
deriving DecidableEq, Repr

/-- Subtraction of rationals in a kernel-computable form (`Rat.sub` is
irreducible); `ratSub_eq` identifies it with `a - b`. -/
def ratSub (a b : ℚ) : ℚ :=
  Rat.divInt (a.num * b.den - b.num * a.den) (a.den * b.den)

theorem ratSub_eq (a b : ℚ) : ratSub a b = a - b := by
  have ha : ((a.den : ℚ)) ≠ 0 := by exact_mod_cast a.den_nz
  have hb : ((b.den : ℚ)) ≠ 0 := by exact_mod_cast b.den_nz
  rw [ratSub, Rat.divInt_eq_div]
  conv_rhs => rw [← Rat.num_div_den a, ← Rat.num_div_den b]
  rw [div_sub_div _ _ ha hb]
  push_cast
  ring_nf

/-- Absolute value of a rational in a kernel-computable form; `ratAbs_eq`
identifies it with `|a|`. -/
def ratAbs (a : ℚ) : ℚ :=
  if a < 0 then -a else a

theorem ratAbs_eq (a : ℚ) : ratAbs a = |a| := by
  rw [ratAbs]
  by_cases h : a < 0
  · rw [if_pos h, abs_of_neg h]
  · rw [if_neg h, abs_of_nonneg (le_of_not_lt h)]

/-- Modelled from the spec: `PlanStep.equalsWithin` (common/src/PlanStep.ts is
not among the provided sources); the spec defines the tolerance-based equality
as `|a-b| < ε`.  Stated via `ratAbs`/`ratSub` so it evaluates in the kernel;
`equalsWithin_eq` gives the textbook form. -/
def equalsWithin (time1 time2 epsilon : ℚ) : Bool :=
  decide (ratAbs (ratSub time1 time2) < epsilon)

theorem equalsWithin_eq (time1 time2 epsilon : ℚ) :
    equalsWithin time1 time2 epsilon = decide (|time1 - time2| < epsilon) := by
  rw [equalsWithin, ratAbs_eq, ratSub_eq]

/-- The tolerance `1e-4` used by `failedAtTime`; stated via `mkRat` so it
evaluates in the kernel. -/
def tolerance : ℚ := mkRat 1 10000

theorem tolerance_eq : tolerance = 1 / 10000 := by
  rw [tolerance, Rat.mkRat_eq_divInt, Rat.divInt_eq_div]
  norm_num

/-- A parsed plan file (`PlanInfo`), reduced to the fields the validator uses. -/
structure PlanInfo where
  fileUri : List Char
  problemName : List Char
  text : List Char
  steps : List PlanStep
deriving DecidableEq, Repr

/-- `planInfo.getSteps()`. -/
def PlanInfo.getSteps (p : PlanInfo) : List PlanStep := p.steps

/-- A spawn-level error (`child.error` from `child_process.spawnSync`). -/
structure ProcessError where
  name : List Char
  message : List Char
deriving DecidableEq, Repr

/-! ## PlanValidationOutcome -/

structure PlanValidationOutcome where
  planInfo : PlanInfo
  diagnostics : List Diagnostic
  error : Option (List Char)
deriving DecidableEq, Repr

def PlanValidationOutcome.getError (o : PlanValidationOutcome) : Option (List Char) :=
  o.error

/-- `getDiagnostics()`: a one-entry map from the plan's uri to the diagnostics. -/
def PlanValidationOutcome.getDiagnostics (o : PlanValidationOutcome) :
    List (List Char × List Diagnostic) :=
  [(o.planInfo.fileUri, o.diagnostics)]

/-- `PlanValidationOutcome.invalidPlanDescription`. -/
def PlanValidationOutcome.invalidPlanDescription (planInfo : PlanInfo) :
    PlanValidationOutcome :=
  let error := str "Invalid plan description."
  ⟨planInfo, [createDiagnostic 0 error DiagnosticSeverity.Error], some error⟩

/-- `PlanValidationOutcome.valid` (passes `undefined` for the error). -/
def PlanValidationOutcome.valid (planInfo : PlanInfo) : PlanValidationOutcome :=
  ⟨planInfo, [], none⟩

/-- `PlanValidationOutcome.failed`. -/
def PlanValidationOutcome.failed (planInfo : PlanInfo) (error : ProcessError) :
    PlanValidationOutcome :=
  let message := str "Validate tool failed. " ++ error.message
  ⟨planInfo, [createDiagnostic 0 message DiagnosticSeverity.Error], some message⟩

/-- `PlanValidationOutcome.failedAtTime`: anchor one Warning diagnostic per
repair hint on the line of the first plan step whose start time is within
`1e-4` of the reported timestamp, or line 0 when no step matches. -/
def PlanValidationOutcome.failedAtTime (planInfo : PlanInfo) (timeStamp : ℚ)
    (repairHints : List (List Char)) : PlanValidationOutcome :=
  let errorLine :=
    match planInfo.getSteps.find? (fun step => equalsWithin step.startTime timeStamp tolerance) with
    | some stepAtTimeStamp => stepAtTimeStamp.lineIndex
    | none => 0
  let diagnostics := repairHints.map
    (fun hint => Diagnostic.mk (createRangeFromLine errorLine) hint DiagnosticSeverity.Warning)
  ⟨planInfo, diagnostics, none⟩

/-- `PlanValidationOutcome.unknown`. -/
def PlanValidationOutcome.unknownOutcome (planInfo : PlanInfo) : PlanValidationOutcome :=
  ⟨planInfo,
   [Diagnostic.mk (createRangeFromLine 0)
     (str "Unknown error. Run the \x27PDDL: Validate plan\x27 command for more information.")
     DiagnosticSeverity.Warning],
   some (str "Unknown error.")⟩

/-! ## Regex models for `analyzeOutput` -/

/-- The literal part of `/Checking next happening \(time (\d+.\d+)\)/`. -/
def happeningLit : List Char := str "Checking next happening (time "

/-- Attempt of the tail `(\d+.\d+)\)` with the first digit group of width
exactly `a` (assumed a prefix of the maximal digit run): one character that is
not a line terminator (the regex `.` is unescaped and the dotAll flag is not
set), then a nonempty digit run followed by `)`. The second `\d+` can only
succeed at its maximal width, since every shorter cut is followed by a digit,
not `)`. Returns the capture pieces and the number of characters consumed. -/
def tryTailAt (s : List Char) (a : ℕ) : Option ((List Char × Char × List Char) × ℕ) :=
  let d1 := s.take a
  match s.drop a with
  | [] => none
  | c :: rest2 =>
    if isJsLineTerminator c then none
    else
      let d2 := rest2.takeWhile (fun ch => ch.isDigit)
      if d2.isEmpty then none
      else
        match rest2.drop d2.length with
        | ')' :: _ => some ((d1, c, d2), a + 1 + d2.length + 1)
        | _ => none

/-- Backtracking over the width of the first `\d+`: greedy, so maximal width
first, shrinking down to 1. -/
def tryTailFrom (s : List Char) : ℕ → Option ((List Char × Char × List Char) × ℕ)
  | 0 => none
  | a + 1 =>
    match tryTailAt s (a + 1) with
    | some r => some r
    | none => tryTailFrom s a

/-- Match the tail `(\d+.\d+)\)` at the start of `s`. -/
def tryTail (s : List Char) : Option ((List Char × Char × List Char) × ℕ) :=
  tryTailFrom s (s.takeWhile (fun ch => ch.isDigit)).length

/-- All (non-overlapping, leftmost-first) matches of the global regex
`/Checking next happening \(time (\d+.\d+)\)/g`, each converted by
`parseFloat`, in match order — the successive values assigned to `timeStamp`
by the `while` loop in `analyzeOutput`.  The fuel argument bounds the number
of scan positions; every recursive call consumes at least one character, so
any fuel of at least the input length is exact. -/
def scanHappenings : ℕ → List Char → List ℚ
  | 0, _ => []
  | _, [] => []
  | fuel + 1, c :: rest =>
    if happeningLit.isPrefixOf (c :: rest) then
      match tryTail ((c :: rest).drop happeningLit.length) with
      | some ((d1, ch, d2), consumed) =>
        captureValue d1 ch d2 ::
          scanHappenings fuel ((c :: rest).drop (happeningLit.length + consumed))
      | none => scanHappenings fuel rest
    else
      scanHappenings fuel rest

/-- `analyzeOutput`'s `while ((result = failurePattern.exec(output)) !== null)`
loop: the sequence of parsed timestamps. -/
def extractHappeningTimes (output : List Char) : List ℚ :=
  scanHappenings output.length output

/-- The final value of `timeStamp`: initialised to `-1`, overwritten by each
successive match. -/
def timeStampOf (output : List Char) : ℚ :=
  (extractHappeningTimes output).foldl (fun _ t => t) (-1)

/-- First literal of `/Plan Repair Advice:([\s\S]+)Failed plans:/`. -/
def adviceLit : List Char := str "Plan Repair Advice:"

/-- Second literal of `/Plan Repair Advice:([\s\S]+)Failed plans:/`. -/
def failedPlansLit : List Char := str "Failed plans:"

/-- All indices where `pat` occurs in `s`. -/
def indicesOf (s pat : List Char) : List ℕ :=
  (List.range (s.length + 1)).filter (fun i => pat.isPrefixOf (s.drop i))

/-- `output.match(/Plan Repair Advice:([\s\S]+)Failed plans:/)`, group 1:
the match starts at the first occurrence of the first literal; the greedy
nonempty group extends to the last occurrence of `Failed plans:` that leaves
the group nonempty. -/
def repairAdviceCapture (output : List Char) : Option (List Char) :=
  match (indicesOf output adviceLit).head? with
  | none => none
  | some i =>
    let p := i + adviceLit.length
    match ((indicesOf output failedPlansLit).filter (fun q => p + 1 ≤ q)).getLast? with
    | none => none
    | some q => some ((output.take q).drop p)

/-- The condition of the first branch of `analyzeOutput`. -/
def failureMatches (output : List Char) : Bool :=
  containsSubstr output (str "Plan failed to execute") ||
    containsSubstr output (str "Goal not satisfied")

/-- `PlanValidator.analyzeOutput`. -/
def analyzeOutput (planInfo : PlanInfo) (error : Option ProcessError) (output : List Char) :
    PlanValidationOutcome :=
  match error with
  | some e => PlanValidationOutcome.failed planInfo e
  | none =>
    if failureMatches output then
      let timeStamp := timeStampOf output
      match repairAdviceCapture output with
      | some captured =>
        PlanValidationOutcome.failedAtTime planInfo timeStamp (splitLines (trimChars captured))
      | none =>
        PlanValidationOutcome.failedAtTime planInfo timeStamp
          [str "Unidentified error. Run the \x27PDDL: Validate plan\x27 command for more info."]
    else if containsSubstr output (str "Bad plan description!") then
      PlanValidationOutcome.invalidPlanDescription planInfo
    else if containsSubstr output (str "Plan valid") then
      PlanValidationOutcome.valid planInfo
    else
      PlanValidationOutcome.unknownOutcome planInfo

/-- The line selected by `failedAtTime`: the first plan step whose start time
is within `1e-4` of the timestamp, else line 0. -/
def stepLineAt (planInfo : PlanInfo) (timeStamp : ℚ) : ℕ :=
  match planInfo.getSteps.find? (fun step => equalsWithin step.startTime timeStamp tolerance) with
  | some stepAtTimeStamp => stepAtTimeStamp.lineIndex
  | none => 0

theorem failedAtTime_eq (planInfo : PlanInfo) (ts : ℚ) (hints : List (List Char)) :
    PlanValidationOutcome.failedAtTime planInfo ts hints =
      ⟨planInfo,
       hints.map (fun hint => createDiagnostic (stepLineAt planInfo ts) hint
         DiagnosticSeverity.Warning),
       none⟩ := rfl

theorem foldl_replace_getLast (l : List ℚ) (init : ℚ) :
    l.foldl (fun _ t => t) init = l.getLast?.getD init := by
  induction l generalizing init with
  | nil => rfl
  | cons a l ih =>
    rw [List.foldl_cons, ih]
    cases l with
    | nil => rfl
    | cons b t =>
      rw [List.getLast?_cons_cons]
      cases hbt : (b :: t).getLast? with
      | none => exact absurd (List.getLast?_eq_none_iff.mp hbt) (List.cons_ne_nil b t)
      | some x => rfl

theorem timeStampOf_eq (output : List Char) :
    timeStampOf output = (extractHappeningTimes output).getLast?.getD (-1) :=
  foldl_replace_getLast _ _

/-- Behaviour of `analyzeOutput` on the goal-failure branch, with no
process-level error. -/
theorem analyzeOutput_failure_spec (planInfo : PlanInfo) (output : List Char)
    (h : failureMatches output = true) :
    analyzeOutput planInfo none output =
      ⟨planInfo,
       (match repairAdviceCapture output with
        | some captured => splitLines (trimChars captured)
        | none =>
          [str "Unidentified error. Run the \x27PDDL: Validate plan\x27 command for more info."]).map
         (fun hint =>
           createDiagnostic
             (stepLineAt planInfo ((extractHappeningTimes output).getLast?.getD (-1)))
             hint DiagnosticSeverity.Warning),
       none⟩ := by
  cases hr : repairAdviceCapture output with
  | none =>
    simp only [analyzeOutput, h, if_true, hr, failedAtTime_eq, timeStampOf_eq]
  | some captured =>
    simp only [analyzeOutput, h, if_true, hr, failedAtTime_eq, timeStampOf_eq]

/-! ## Claims about `analyzeOutput` -/

/-- C1: for every validator output matching "Plan failed to execute" or
"Goal not satisfied" with no process-level error, `analyzeOutput` extracts the
timestamp of the LAST "Checking next happening (time T)" match (later matches
supersede earlier ones, initial value -1), collects one diagnostic per line
between "Plan Repair Advice:" and "Failed plans:" (or a single generic hint if
that block is absent), and every resulting diagnostic has Warning severity and
sits on the line of the plan step whose start time is within tolerance 1e-4 of
that timestamp, or on line 0 if no step matches. -/
theorem c1_analyzeOutput_goal_failure (planInfo : PlanInfo) (output : List Char)
    (h : failureMatches output = true) :
    analyzeOutput planInfo none output =
      ⟨planInfo,
       (match repairAdviceCapture output with
        | some captured => splitLines (trimChars captured)
        | none =>
          [str "Unidentified error. Run the \x27PDDL: Validate plan\x27 command for more info."]).map
         (fun hint =>
           createDiagnostic
             (stepLineAt planInfo ((extractHappeningTimes output).getLast?.getD (-1)))
             hint DiagnosticSeverity.Warning),
       none⟩ ∧
    ∀ d ∈ (analyzeOutput planInfo none output).diagnostics,
      d.severity = DiagnosticSeverity.Warning ∧
      d.range.startLine =
        stepLineAt planInfo ((extractHappeningTimes output).getLast?.getD (-1)) := by
  refine ⟨analyzeOutput_failure_spec planInfo output h, ?_⟩
  intro d hd
  rw [analyzeOutput_failure_spec planInfo output h] at hd
  simp only [List.mem_map] at hd
  obtain ⟨hint, hmem, rfl⟩ := hd
  exact ⟨rfl, rfl⟩

/-- Concrete plan for the C1 witness: steps at times 1.0 (line 3) and 2.5 (line 7). -/
def c1Plan : PlanInfo :=
  ⟨str "file:test.plan", str "p1", str "", [⟨1, 3⟩, ⟨Rat.divInt 5 2, 7⟩]⟩

/-- Concrete validator output for the C1 witness: two happening timestamps
(1.0 then 2.5) followed by a repair-advice block with two hint lines. -/
def c1Output : List Char :=
  str "Plan failed to execute\nChecking next happening (time 1.0)\nChecking next happening (time 2.5)\nPlan Repair Advice:\nhintA\nhintB\nFailed plans:"

set_option maxRecDepth 100000 in
theorem c1_analyzeOutput_goal_failure_witness :
    failureMatches c1Output = true ∧
    (∀ d ∈ (analyzeOutput c1Plan none c1Output).diagnostics,
      d.severity = DiagnosticSeverity.Warning ∧
      d.range.startLine =
        stepLineAt c1Plan ((extractHappeningTimes c1Output).getLast?.getD (-1))) ∧
    (extractHappeningTimes c1Output).getLast?.getD (-1) = Rat.divInt 5 2 ∧
    stepLineAt c1Plan ((extractHappeningTimes c1Output).getLast?.getD (-1)) = 7 ∧
    (analyzeOutput c1Plan none c1Output).diagnostics.map (fun d => d.message) =
      [str "hintA", str "hintB"] :=
  ⟨rfl, (c1_analyzeOutput_goal_failure c1Plan c1Output rfl).2, rfl, rfl, rfl⟩

/-- C5: for every validator output matching "Plan valid" and matching neither
the failure markers nor "Bad plan description!", with no process-level error,
`analyzeOutput` returns an outcome with zero diagnostics and no error string. -/
theorem c5_plan_valid (planInfo : PlanInfo) (output : List Char)
    (h1 : failureMatches output = false)
    (h2 : containsSubstr output (str "Bad plan description!") = false)
    (h3 : containsSubstr output (str "Plan valid") = true) :
    (analyzeOutput planInfo none output).diagnostics = [] ∧
    (analyzeOutput planInfo none output).getError = none := by
  simp only [analyzeOutput, h1, h2, h3, Bool.false_eq_true, if_false, if_true,
    PlanValidationOutcome.valid, PlanValidationOutcome.getError]
  trivial

theorem c5_plan_valid_witness :
    failureMatches (str "Plan valid") = false ∧
    containsSubstr (str "Plan valid") (str "Bad plan description!") = false ∧
    containsSubstr (str "Plan valid") (str "Plan valid") = true ∧
    ((analyzeOutput ⟨str "file:p.plan", str "p1", str "", []⟩ none
        (str "Plan valid")).diagnostics = [] ∧
      (analyzeOutput ⟨str "file:p.plan", str "p1", str "", []⟩ none
        (str "Plan valid")).getError = none) :=
  ⟨rfl, rfl, rfl,
   c5_plan_valid ⟨str "file:p.plan", str "p1", str "", []⟩ (str "Plan valid") rfl rfl rfl⟩

/-- C6: for every validator output matching "Bad plan description!" and not
matching the goal-failure markers, with no process-level error,
`analyzeOutput` returns exactly one diagnostic, of Error severity, anchored at
line 0, carrying the invalid-plan-description message. -/
theorem c6_bad_plan_description (planInfo : PlanInfo) (output : List Char)
    (h1 : failureMatches output = false)
    (h2 : containsSubstr output (str "Bad plan description!") = true) :
    (analyzeOutput planInfo none output).diagnostics =
      [createDiagnostic 0 (str "Invalid plan description.") DiagnosticSeverity.Error] ∧
    (analyzeOutput planInfo none output).getError = some (str "Invalid plan description.") := by
  simp only [analyzeOutput, h1, h2, Bool.false_eq_true, if_false, if_true,
    PlanValidationOutcome.invalidPlanDescription, PlanValidationOutcome.getError]
  trivial

theorem c6_bad_plan_description_witness :
    failureMatches (str "Bad plan description!") = false ∧
    containsSubstr (str "Bad plan description!") (str "Bad plan description!") = true ∧
    ((analyzeOutput ⟨str "file:p.plan", str "p1", str "", []⟩ none
        (str "Bad plan description!")).diagnostics =
      [createDiagnostic 0 (str "Invalid plan description.") DiagnosticSeverity.Error] ∧
      (analyzeOutput ⟨str "file:p.plan", str "p1", str "", []⟩ none
        (str "Bad plan description!")).getError = some (str "Invalid plan description.")) :=
  ⟨rfl, rfl,
   c6_bad_plan_description ⟨str "file:p.plan", str "p1", str "", []⟩
     (str "Bad plan description!") rfl rfl⟩

/-- C9: for every validator output matching a goal-failure marker but
containing no "Checking next happening (time T)" occurrence, the timestamp
stays at its initial value -1; for any plan whose steps all have start times
at distance at least 1e-4 from -1, every resulting Warning diagnostic sits at
line 0. -/
theorem c9_no_happening_line_zero (planInfo : PlanInfo) (output : List Char)
    (h1 : failureMatches output = true)
    (h2 : extractHappeningTimes output = [])
    (h3 : ∀ step ∈ planInfo.getSteps, tolerance ≤ |step.startTime - (-1)|) :
    timeStampOf output = -1 ∧
    ∀ d ∈ (analyzeOutput planInfo none output).diagnostics,
      d.range.startLine = 0 := by
  have hts : timeStampOf output = -1 := by
    rw [timeStampOf_eq, h2]
    rfl
  refine ⟨hts, ?_⟩
  have hline : stepLineAt planInfo ((extractHappeningTimes output).getLast?.getD (-1)) = 0 := by
    rw [h2]
    show stepLineAt planInfo (-1) = 0
    rw [stepLineAt]
    have hfind : planInfo.getSteps.find?
        (fun step => equalsWithin step.startTime (-1) tolerance) = none := by
      rw [List.find?_eq_none]
      intro step hstep
      rw [equalsWithin_eq]
      simp only [decide_eq_true_eq, not_lt]
      exact h3 step hstep
    rw [hfind]
  intro d hd
  rw [analyzeOutput_failure_spec planInfo output h1] at hd
  simp only [List.mem_map] at hd
  obtain ⟨hint, hmem, rfl⟩ := hd
  rw [hline]
  rfl

/-- Concrete output for the C9 witness: a goal-failure marker with no
happening checkpoint. -/
def c9Output : List Char := str "Goal not satisfied\nPlan Repair Advice:\nhintX\nFailed plans:"

/-- Concrete plan for the C9 witness: one step at time 4 (line 9), far from -1. -/
def c9Plan : PlanInfo := ⟨str "file:c9.plan", str "p9", str "", [⟨4, 9⟩]⟩

theorem c9_no_happening_line_zero_witness :
    failureMatches c9Output = true ∧
    extractHappeningTimes c9Output = [] ∧
    (∀ step ∈ c9Plan.getSteps, tolerance ≤ |step.startTime - (-1)|) ∧
    (timeStampOf c9Output = -1 ∧
      ∀ d ∈ (analyzeOutput c9Plan none c9Output).diagnostics, d.range.startLine = 0) :=
  ⟨rfl, rfl,
   by
     intro step hstep
     simp only [c9Plan, PlanInfo.getSteps, List.mem_singleton] at hstep
     subst hstep
     rw [tolerance_eq]
     norm_num,
   c9_no_happening_line_zero c9Plan c9Output rfl rfl
     (by
       intro step hstep
       simp only [c9Plan, PlanInfo.getSteps, List.mem_singleton] at hstep
       subst hstep
       rw [tolerance_eq]
       norm_num)⟩

/-! ## Diagnostics.ts: workspace files, statuses, validation sweep -/

inductive FileStatus where
  | Dirty
  | Parsed
  | Validating
  | Validated
deriving DecidableEq, Repr

inductive PddlFileKind where
  | unknownPddl
  | domainKind
  | problemKind
  | planKind
deriving DecidableEq, Repr

/-- A `FileInfo` as seen by the validation scheduler: uri, classification,
staleness status and text. -/
structure WorkspaceFile where
  fileUri : List Char
  kind : PddlFileKind
  status : FileStatus
  text : List Char
deriving DecidableEq, Repr

def WorkspaceFile.isUnknownPddl (f : WorkspaceFile) : Bool := f.kind == PddlFileKind.unknownPddl

def WorkspaceFile.isDomain (f : WorkspaceFile) : Bool := f.kind == PddlFileKind.domainKind

def WorkspaceFile.isProblem (f : WorkspaceFile) : Bool := f.kind == PddlFileKind.problemKind

def WorkspaceFile.isPlan (f : WorkspaceFile) : Bool := f.kind == PddlFileKind.planKind

/-- `pddlWorkspace.getAllFilesIf(predicate)`. -/
def getAllFilesIf (files : List WorkspaceFile) (pred : WorkspaceFile → Bool) :
    List WorkspaceFile :=
  files.filter pred

/-- The dispatch decisions of one `validateAllDirty` pass: which files of each
tier get a validation call, and whether a further debounced pass is
scheduled for that tier. -/
structure SweepResult where
  validatedUnknowns : List WorkspaceFile
  validatedDomain : Option WorkspaceFile
  domainReschedule : Bool
  validatedProblem : Option WorkspaceFile
  problemReschedule : Bool
  validatedPlan : Option WorkspaceFile
  planReschedule : Bool
deriving DecidableEq, Repr

/-- `Diagnostics.validateAllDirty`, at the dispatch level: all dirty unknown
files are validated; then, if any dirty domain exists, the first one is
dispatched and the method returns (problems and plans untouched); otherwise
the first dirty problem (if any) and the first dirty plan (if any) are each
dispatched.  Each tier reschedules when it had more than one dirty item. -/
def validateAllDirty (files : List WorkspaceFile) : SweepResult :=
  let dirtyUnknowns := getAllFilesIf files
    (fun f => f.isUnknownPddl && f.status == FileStatus.Parsed)
  let dirtyDomains := getAllFilesIf files
    (fun f => f.isDomain && f.status == FileStatus.Parsed)
  if dirtyDomains.length > 0 then
    { validatedUnknowns := dirtyUnknowns
      validatedDomain := dirtyDomains.head?
      domainReschedule := dirtyDomains.length > 1
      validatedProblem := none
      problemReschedule := false
      validatedPlan := none
      planReschedule := false }
  else
    let dirtyProblems := getAllFilesIf files
      (fun f => f.isProblem && f.status == FileStatus.Parsed)
    let dirtyPlans := getAllFilesIf files
      (fun f => f.isPlan && f.status == FileStatus.Parsed)
    { validatedUnknowns := dirtyUnknowns
      validatedDomain := none
      domainReschedule := false
      validatedProblem := dirtyProblems.head?
      problemReschedule := dirtyProblems.length > 1
      validatedPlan := dirtyPlans.head?
      planReschedule := dirtyPlans.length > 1 }

/-- The dirty (status `Parsed`) files of one classification tier. -/
def dirtyOfKind (files : List WorkspaceFile) (k : PddlFileKind) : List WorkspaceFile :=
  getAllFilesIf files (fun f => f.kind == k && f.status == FileStatus.Parsed)

/-- How many files of a tier one sweep dispatched. -/
def sweepValidatedCount (r : SweepResult) (k : PddlFileKind) : ℕ :=
  match k with
  | PddlFileKind.unknownPddl => r.validatedUnknowns.length
  | PddlFileKind.domainKind => if r.validatedDomain.isSome then 1 else 0
  | PddlFileKind.problemKind => if r.validatedProblem.isSome then 1 else 0
  | PddlFileKind.planKind => if r.validatedPlan.isSome then 1 else 0

/-- The claim C2 as stated, following the spec's words: a sweep validates
exactly one item per priority tier whenever that tier has a dirty item. -/
def claimedOneItemPerTier (files : List WorkspaceFile) : Prop :=
  (dirtyOfKind files PddlFileKind.unknownPddl ≠ [] →
    sweepValidatedCount (validateAllDirty files) PddlFileKind.unknownPddl = 1) ∧
  (dirtyOfKind files PddlFileKind.domainKind ≠ [] →
    sweepValidatedCount (validateAllDirty files) PddlFileKind.domainKind = 1) ∧
  (dirtyOfKind files PddlFileKind.problemKind ≠ [] →
    sweepValidatedCount (validateAllDirty files) PddlFileKind.problemKind = 1) ∧
  (dirtyOfKind files PddlFileKind.planKind ≠ [] →
    sweepValidatedCount (validateAllDirty files) PddlFileKind.planKind = 1)

/-- Counterexample workspace for C2: two dirty unknown files, one dirty
domain, one dirty problem. -/
def c2Files : List WorkspaceFile :=
  [⟨str "file:u1", PddlFileKind.unknownPddl, FileStatus.Parsed, str "x"⟩,
   ⟨str "file:u2", PddlFileKind.unknownPddl, FileStatus.Parsed, str "y"⟩,
   ⟨str "file:d1", PddlFileKind.domainKind, FileStatus.Parsed, str "d"⟩,
   ⟨str "file:p1", PddlFileKind.problemKind, FileStatus.Parsed, str "p"⟩]

/-- C2 counterexample: on `c2Files` the sweep validates BOTH dirty unknown
files (not one) and does not dispatch the dirty problem at all (the domain
branch returns first), so the claim's one-item-per-tier property fails. -/
theorem c2_one_item_per_tier_counterexample :
    ¬ claimedOneItemPerTier c2Files ∧
    sweepValidatedCount (validateAllDirty c2Files) PddlFileKind.unknownPddl = 2 ∧
    dirtyOfKind c2Files PddlFileKind.problemKind ≠ [] ∧
    sweepValidatedCount (validateAllDirty c2Files) PddlFileKind.problemKind = 0 := by
  refine ⟨?_, by decide, by decide, by decide⟩
  intro hclaim
  have h1 := hclaim.1 (by decide)
  revert h1
  decide

theorem validateAllDirty_of_dirty_domain (files : List WorkspaceFile)
    (h : dirtyOfKind files PddlFileKind.domainKind ≠ []) :
    validateAllDirty files =
      { validatedUnknowns := dirtyOfKind files PddlFileKind.unknownPddl
        validatedDomain := (dirtyOfKind files PddlFileKind.domainKind).head?
        domainReschedule := decide (1 < (dirtyOfKind files PddlFileKind.domainKind).length)
        validatedProblem := none
        problemReschedule := false
        validatedPlan := none
        planReschedule := false } := by
  simp only [validateAllDirty]
  split
  · rfl
  · next hneg => exact absurd (List.length_pos.mpr h) hneg

theorem validateAllDirty_of_no_dirty_domain (files : List WorkspaceFile)
    (h : dirtyOfKind files PddlFileKind.domainKind = []) :
    validateAllDirty files =
      { validatedUnknowns := dirtyOfKind files PddlFileKind.unknownPddl
        validatedDomain := none
        domainReschedule := false
        validatedProblem := (dirtyOfKind files PddlFileKind.problemKind).head?
        problemReschedule := decide (1 < (dirtyOfKind files PddlFileKind.problemKind).length)
        validatedPlan := (dirtyOfKind files PddlFileKind.planKind).head?
        planReschedule := decide (1 < (dirtyOfKind files PddlFileKind.planKind).length) } := by
  simp only [validateAllDirty]
  split
  · next hpos => exact absurd h (List.length_pos.mp hpos)
  · rfl

/-- C2 (amended): on a sweep, ALL dirty unknown files are validated; if any
dirty domain exists the first one is validated and the sweep ends without
touching problems or plans (rescheduling when more than one domain is dirty);
otherwise the first dirty problem (if any) and the first dirty plan (if any)
are each validated in the same pass, each tier rescheduling when more than one
of its items is dirty. -/
theorem c2_sweep_dispatch (files : List WorkspaceFile) :
    (validateAllDirty files).validatedUnknowns = dirtyOfKind files PddlFileKind.unknownPddl ∧
    (dirtyOfKind files PddlFileKind.domainKind ≠ [] →
      (validateAllDirty files).validatedDomain =
        (dirtyOfKind files PddlFileKind.domainKind).head? ∧
      (validateAllDirty files).domainReschedule =
        decide (1 < (dirtyOfKind files PddlFileKind.domainKind).length) ∧
      (validateAllDirty files).validatedProblem = none ∧
      (validateAllDirty files).validatedPlan = none) ∧
    (dirtyOfKind files PddlFileKind.domainKind = [] →
      (validateAllDirty files).validatedDomain = none ∧
      (validateAllDirty files).validatedProblem =
        (dirtyOfKind files PddlFileKind.problemKind).head? ∧
      (validateAllDirty files).problemReschedule =
        decide (1 < (dirtyOfKind files PddlFileKind.problemKind).length) ∧
      (validateAllDirty files).validatedPlan =
        (dirtyOfKind files PddlFileKind.planKind).head? ∧
      (validateAllDirty files).planReschedule =
        decide (1 < (dirtyOfKind files PddlFileKind.planKind).length)) := by
  refine ⟨?_, ?_, ?_⟩
  · by_cases h : dirtyOfKind files PddlFileKind.domainKind = []
    · rw [validateAllDirty_of_no_dirty_domain files h]
    · rw [validateAllDirty_of_dirty_domain files h]
  · intro h
    rw [validateAllDirty_of_dirty_domain files h]
    exact ⟨rfl, rfl, rfl, rfl⟩
  · intro h
    rw [validateAllDirty_of_no_dirty_domain files h]
    exact ⟨rfl, rfl, rfl, rfl, rfl⟩

/-- Second workspace for the C2 witness: no dirty domain, one dirty problem,
two dirty plans. -/
def c2FilesNoDomain : List WorkspaceFile :=
  [⟨str "file:p1", PddlFileKind.problemKind, FileStatus.Parsed, str "p"⟩,
   ⟨str "file:l1", PddlFileKind.planKind, FileStatus.Parsed, str "l"⟩,
   ⟨str "file:l2", PddlFileKind.planKind, FileStatus.Parsed, str "m"⟩]

theorem c2_sweep_dispatch_witness :
    dirtyOfKind c2Files PddlFileKind.domainKind ≠ [] ∧
    ((validateAllDirty c2Files).validatedDomain =
        (dirtyOfKind c2Files PddlFileKind.domainKind).head? ∧
      (validateAllDirty c2Files).domainReschedule =
        decide (1 < (dirtyOfKind c2Files PddlFileKind.domainKind).length) ∧
      (validateAllDirty c2Files).validatedProblem = none ∧
      (validateAllDirty c2Files).validatedPlan = none) ∧
    dirtyOfKind c2FilesNoDomain PddlFileKind.domainKind = [] ∧
    ((validateAllDirty c2FilesNoDomain).validatedDomain = none ∧
      (validateAllDirty c2FilesNoDomain).validatedProblem =
        (dirtyOfKind c2FilesNoDomain PddlFileKind.problemKind).head? ∧
      (validateAllDirty c2FilesNoDomain).problemReschedule =
        decide (1 < (dirtyOfKind c2FilesNoDomain PddlFileKind.problemKind).length) ∧
      (validateAllDirty c2FilesNoDomain).validatedPlan =
        (dirtyOfKind c2FilesNoDomain PddlFileKind.planKind).head? ∧
      (validateAllDirty c2FilesNoDomain).planReschedule =
        decide (1 < (dirtyOfKind c2FilesNoDomain PddlFileKind.planKind).length)) :=
  ⟨by decide, (c2_sweep_dispatch c2Files).2.1 (by decide),
   by decide, (c2_sweep_dispatch c2FilesNoDomain).2.2 (by decide)⟩

/-! ## Diagnostics.ts: debounced validation scheduling -/

/-- The scheduler's single timer slot (`this.timeout`): at most one pending
sweep, identified by its fire time (in milliseconds). -/
structure ValidationTimer where
  pending : Option ℕ
deriving DecidableEq, Repr

/-- `Diagnostics.cancelScheduledValidation`: clears any pending timer. -/
def cancelScheduledValidation (_t : ValidationTimer) : ValidationTimer :=
  ⟨none⟩

/-- The delay used by `scheduleValidation`:
`this.pddlParserSettings.delayInSecondsBeforeParsing || this.defaultTimerDelayInSeconds`.
JS `||` falls back to the default 3 when the setting is undefined OR 0 (both
falsy). -/
def timerDelaySeconds (delayInSecondsBeforeParsing : Option ℕ) : ℕ :=
  match delayInSecondsBeforeParsing with
  | some d => if d = 0 then 3 else d
  | none => 3

/-- `Diagnostics.scheduleValidation` at time `now`: cancel any pending timer,
then start one firing after the configured delay. -/
def scheduleValidation (delayCfg : Option ℕ) (now : ℕ) (t : ValidationTimer) :
    ValidationTimer :=
  let cancelled := cancelScheduledValidation t
  { cancelled with pending := some (now + timerDelaySeconds delayCfg * 1000) }

/-- The delay as claim C4 states it: the configured delay, defaulting to 3
only when unset. -/
def claimedDelaySeconds (delayCfg : Option ℕ) : ℕ :=
  delayCfg.getD 3

/-- C4 counterexample: with the delay configured to 0 seconds, a call at time
7 schedules the sweep at 7 + 3000 ms, not at 7 + 0 ms as the claim's
"configured delay (default 3 seconds when unset)" prescribes — JS `|| 3` also
overrides a configured 0. -/
theorem c4_configured_zero_counterexample :
    (scheduleValidation (some 0) 7 ⟨none⟩).pending = some (7 + 3 * 1000) ∧
    (scheduleValidation (some 0) 7 ⟨none⟩).pending ≠
      some (7 + claimedDelaySeconds (some 0) * 1000) := by
  constructor
  · rfl
  · decide

/-- C4 (amended): `scheduleValidation` is a single-slot trailing debounce:
each call cancels any pending timer and schedules exactly one sweep after the
configured delay (3 seconds when the setting is unset or zero), so any
nonempty burst of edits leaves exactly one pending sweep, at
(time of last edit + delay). -/
theorem c4_trailing_debounce (delayCfg : Option ℕ) (t : ValidationTimer)
    (edits : List ℕ) (h : edits ≠ []) :
    (edits.foldl (fun st e => scheduleValidation delayCfg e st) t).pending =
      some (edits.getLast h + timerDelaySeconds delayCfg * 1000) := by
  induction edits generalizing t with
  | nil => exact absurd rfl h
  | cons e es ih =>
    cases es with
    | nil => rfl
    | cons e2 es2 =>
      rw [List.foldl_cons, ih (scheduleValidation delayCfg e t) (List.cons_ne_nil e2 es2)]
      rw [List.getLast_cons (List.cons_ne_nil e2 es2)]

theorem c4_trailing_debounce_witness :
    ([5, 12, 40] : List ℕ) ≠ [] ∧
    (([5, 12, 40] : List ℕ).foldl
        (fun st e => scheduleValidation none e st) ⟨none⟩).pending =
      some (([5, 12, 40] : List ℕ).getLast (by decide) + timerDelaySeconds none * 1000) ∧
    (([5, 12, 40] : List ℕ).foldl
        (fun st e => scheduleValidation none e st) ⟨none⟩).pending = some 3040 :=
  ⟨by decide, c4_trailing_debounce none ⟨none⟩ [5, 12, 40] (by decide), rfl⟩

/-! ## Diagnostics.ts: diagnostic collection, getDomainFileFor, validateUnknownFile -/

/-- The vscode `DiagnosticCollection`, modelled as an association list from
file uri to that file's diagnostics. -/
def DiagCollection : Type := List (List Char × List Diagnostic)

/-- `diagnosticCollection.delete(uri)`. -/
def collDelete (coll : DiagCollection) (uri : List Char) : DiagCollection :=
  coll.filter (fun e => !(e.1 == uri))

/-- `diagnosticCollection.set(uri, diagnostics)`. -/
def collSet (coll : DiagCollection) (uri : List Char) (ds : List Diagnostic) :
    DiagCollection :=
  (uri, ds) :: collDelete coll uri

/-- Lookup of a file's current diagnostics. -/
def collGet (coll : DiagCollection) (uri : List Char) : Option (List Diagnostic) :=
  (coll.find? (fun e => e.1 == uri)).map (fun e => e.2)

theorem collGet_set (coll : DiagCollection) (uri : List Char) (ds : List Diagnostic) :
    collGet (collSet coll uri ds) uri = some ds := by
  simp [collGet, collSet, List.find?]

theorem collGet_delete (coll : DiagCollection) (uri : List Char) :
    collGet (collDelete coll uri) uri = none := by
  rw [collGet, Option.map_eq_none', List.find?_eq_none]
  intro e he
  rw [collDelete, List.mem_filter] at he
  simpa using he.2

/-- Modelled from the spec: `Validator.createRange` (diagnostics/validator.ts
is not among the provided sources); a range spanning the given start and end
lines. -/
def validatorCreateRange (startLine endLine : ℕ) : VsRange :=
  ⟨startLine, 0, endLine, 100⟩

/-- `Diagnostics.sendDiagnostic`: replaces the file's diagnostics with the
single given message. -/
def sendDiagnostic (coll : DiagCollection) (fileUri message : List Char)
    (severity : DiagnosticSeverity) : DiagCollection :=
  collSet coll fileUri [⟨validatorCreateRange 0 0, message, severity⟩]

/-- `Diagnostics.sendDiagnosticInfo`. -/
def sendDiagnosticInfo (coll : DiagCollection) (fileUri message : List Char) :
    DiagCollection :=
  sendDiagnostic coll fileUri message DiagnosticSeverity.Information

/-- An open domain file, reduced to what domain matching uses. -/
structure DomainFileRec where
  name : List Char
  fileUri : List Char
deriving DecidableEq, Repr

/-- An open problem file, reduced to what domain matching uses. -/
structure ProblemFileRec where
  name : List Char
  domainName : List Char
  fileUri : List Char
  status : FileStatus
deriving DecidableEq, Repr

/-- Modelled from the spec: `folder.getDomainFilesFor(problemFile)`
(common/src/workspace-model is not among the provided sources) — the open
domain files in the problem's folder whose declared name case-insensitively
equals the problem's referenced domain name. -/
def getDomainFilesFor (domains : List DomainFileRec) (problemFile : ProblemFileRec) :
    List DomainFileRec :=
  domains.filter (fun d => lowerEq d.name problemFile.domainName)

/-- Modelled from the spec: `PddlWorkspace.getFileName(uri)` — the last path
segment. -/
def getFileName (uri : List Char) : List Char :=
  ((uri.splitOn '/').getLast?).getD uri

/-- The outcome of `Diagnostics.getDomainFileFor`: the returned domain (or
null), the problem file with its possibly updated status, and the updated
diagnostic collection. -/
structure GetDomainResult where
  result : Option DomainFileRec
  problemFile : ProblemFileRec
  collection : DiagCollection

/-- `Diagnostics.getDomainFileFor`: one matching domain is returned; zero or
more than one yield an informational diagnostic on the problem file, set its
status to Validated and return null. -/
def getDomainFileFor (domains : List DomainFileRec) (problemFile : ProblemFileRec)
    (coll : DiagCollection) : GetDomainResult :=
  let domainFiles := getDomainFilesFor domains problemFile
  if domainFiles.length > 1 then
    let message := str "There are multiple candidate domains with name " ++
      problemFile.domainName ++ str ": " ++
      (List.intercalate (str ", ") (domainFiles.map (fun d => getFileName d.fileUri)))
    ⟨none, { problemFile with status := FileStatus.Validated },
      sendDiagnosticInfo coll problemFile.fileUri message⟩
  else if domainFiles.length == 0 then
    let message := str "There are no domains open in the same folder with name (domain \x27" ++
      problemFile.domainName ++ str "\x27) open in the editor."
    ⟨none, { problemFile with status := FileStatus.Validated },
      sendDiagnosticInfo coll problemFile.fileUri message⟩
  else
    ⟨domainFiles.head?, problemFile, coll⟩

/-- The problem branch of `Diagnostics.validatePddlDocument`: when
`getDomainFileFor` returns null, no validator invocation is made. -/
def validatePddlDocumentProblem (domains : List DomainFileRec)
    (problemFile : ProblemFileRec) (coll : DiagCollection) :
    Option (DomainFileRec × List ProblemFileRec) × GetDomainResult :=
  let r := getDomainFileFor domains problemFile coll
  match r.result with
  | some domainFile => (some (domainFile, [problemFile]), r)
  | none => (none, r)

theorem getDomainFileFor_of_multiple (domains : List DomainFileRec)
    (problemFile : ProblemFileRec) (coll : DiagCollection)
    (h : 1 < (getDomainFilesFor domains problemFile).length) :
    getDomainFileFor domains problemFile coll =
      ⟨none, { problemFile with status := FileStatus.Validated },
        sendDiagnosticInfo coll problemFile.fileUri
          (str "There are multiple candidate domains with name " ++
            problemFile.domainName ++ str ": " ++
            (List.intercalate (str ", ")
              ((getDomainFilesFor domains problemFile).map (fun d => getFileName d.fileUri))))⟩ := by
  simp only [getDomainFileFor]
  split
  · rfl
  · next hneg => exact absurd h hneg

theorem getDomainFileFor_of_missing (domains : List DomainFileRec)
    (problemFile : ProblemFileRec) (coll : DiagCollection)
    (h : (getDomainFilesFor domains problemFile).length = 0) :
    getDomainFileFor domains problemFile coll =
      ⟨none, { problemFile with status := FileStatus.Validated },
        sendDiagnosticInfo coll problemFile.fileUri
          (str "There are no domains open in the same folder with name (domain \x27" ++
            problemFile.domainName ++ str "\x27) open in the editor.")⟩ := by
  simp only [getDomainFileFor]
  split
  · next hgt => exact absurd hgt (by omega)
  · split
    · rfl
    · next hne =>
      exact absurd (by simpa using h) hne

/-- C3: for every problem file whose domain reference matches zero or more
than one open domain file in its folder, `getDomainFileFor` leaves exactly one
informational diagnostic on the problem file, sets its status to Validated,
and returns null, so `validatePddlDocument` makes no validator invocation for
that file. -/
theorem c3_domain_resolution_failure (domains : List DomainFileRec)
    (problemFile : ProblemFileRec) (coll : DiagCollection)
    (h : (getDomainFilesFor domains problemFile).length = 0 ∨
      1 < (getDomainFilesFor domains problemFile).length) :
    (getDomainFileFor domains problemFile coll).result = none ∧
    (getDomainFileFor domains problemFile coll).problemFile.status = FileStatus.Validated ∧
    (∃ message, collGet (getDomainFileFor domains problemFile coll).collection
      problemFile.fileUri =
      some [⟨validatorCreateRange 0 0, message, DiagnosticSeverity.Information⟩]) ∧
    (validatePddlDocumentProblem domains problemFile coll).1 = none := by
  have hres : (getDomainFileFor domains problemFile coll).result = none := by
    rcases h with h0 | h2
    · rw [getDomainFileFor_of_missing domains problemFile coll h0]
    · rw [getDomainFileFor_of_multiple domains problemFile coll h2]
  refine ⟨hres, ?_, ?_, ?_⟩
  · rcases h with h0 | h2
    · rw [getDomainFileFor_of_missing domains problemFile coll h0]
    · rw [getDomainFileFor_of_multiple domains problemFile coll h2]
  · rcases h with h0 | h2
    · rw [getDomainFileFor_of_missing domains problemFile coll h0]
      exact ⟨_, collGet_set _ _ _⟩
    · rw [getDomainFileFor_of_multiple domains problemFile coll h2]
      exact ⟨_, collGet_set _ _ _⟩
  · simp only [validatePddlDocumentProblem]
    rw [hres]

/-- Concrete inputs for the C3 witness: a problem referencing domain "logistics"
with no matching domain open (the only open domain is named "rover"). -/
def c3Problem : ProblemFileRec :=
  ⟨str "p1", str "logistics", str "file:folder/p1.pddl", FileStatus.Validating⟩

def c3Domains : List DomainFileRec :=
  [⟨str "rover", str "file:folder/rover.pddl"⟩]

theorem c3_domain_resolution_failure_witness :
    ((getDomainFilesFor c3Domains c3Problem).length = 0 ∨
      1 < (getDomainFilesFor c3Domains c3Problem).length) ∧
    ((getDomainFileFor c3Domains c3Problem []).result = none ∧
      (getDomainFileFor c3Domains c3Problem []).problemFile.status = FileStatus.Validated ∧
      (∃ message, collGet (getDomainFileFor c3Domains c3Problem []).collection
        c3Problem.fileUri =
        some [⟨validatorCreateRange 0 0, message, DiagnosticSeverity.Information⟩]) ∧
      (validatePddlDocumentProblem c3Domains c3Problem []).1 = none) :=
  ⟨Or.inl (by decide),
   c3_domain_resolution_failure c3Domains c3Problem [] (Or.inl (by decide))⟩

/-! ## Diagnostics.ts: validateUnknownFile -/

/-- Modelled from the spec: `Parser.stripComments` (common/src/parser is not
among the provided sources) — removes `;`-to-end-of-line comments, keeping the
newline. Structural in a fuel argument; `stripCommentsAll` supplies the exact
fuel. -/
def stripCommentsAux : ℕ → List Char → List Char
  | 0, _ => []
  | _, [] => []
  | fuel + 1, c :: rest =>
    if c = ';' then
      stripCommentsAux fuel (rest.dropWhile (fun ch => ch ≠ '\n'))
    else
      c :: stripCommentsAux fuel rest

def stripCommentsAll (s : List Char) : List Char :=
  stripCommentsAux s.length s

/-- `Parser.stripComments(text).replace(/^\s+/g, '').split('\n')[0]`: the
regex `^\s+` without the multiline flag only strips leading whitespace of the
whole string. -/
def firstNonCommentLine (text : List Char) : List Char :=
  (splitLines ((stripCommentsAll text).dropWhile isJsSpace)).headD []

/-- `Diagnostics.validateUnknownFile`: marks the file Validating, emits one
Error diagnostic naming the first non-comment line when the text is nonempty
(clearing the file's diagnostics instead when it is empty), and marks the file
Validated. -/
def validateUnknownFile (fileInfo : WorkspaceFile) (coll : DiagCollection) :
    WorkspaceFile × DiagCollection :=
  let validating := { fileInfo with status := FileStatus.Validating }
  if validating.text.length > 0 then
    let firstLine := firstNonCommentLine validating.text
    ({ validating with status := FileStatus.Validated },
     sendDiagnostic coll validating.fileUri
       (str "Cannot recognize whether this is a domain or problem: " ++ firstLine)
       DiagnosticSeverity.Error)
  else
    ({ validating with status := FileStatus.Validated },
     collDelete coll validating.fileUri)

theorem validateUnknownFile_of_nonempty (fileInfo : WorkspaceFile) (coll : DiagCollection)
    (h : fileInfo.text ≠ []) :
    validateUnknownFile fileInfo coll =
      ({ fileInfo with status := FileStatus.Validated },
       sendDiagnostic coll fileInfo.fileUri
         (str "Cannot recognize whether this is a domain or problem: " ++
           firstNonCommentLine fileInfo.text)
         DiagnosticSeverity.Error) := by
  simp only [validateUnknownFile]
  split
  · rfl
  · next hneg => exact absurd (List.length_pos.mpr h) hneg

theorem validateUnknownFile_of_empty (fileInfo : WorkspaceFile) (coll : DiagCollection)
    (h : fileInfo.text = []) :
    validateUnknownFile fileInfo coll =
      ({ fileInfo with status := FileStatus.Validated },
       collDelete coll fileInfo.fileUri) := by
  simp only [validateUnknownFile]
  split
  · next hpos =>
    have hlen : fileInfo.text.length > 0 := hpos
    rw [h] at hlen
    exact absurd hlen (by decide)
  · rfl

/-- C10: `validateUnknownFile` always terminates with the file Validated; it
emits the single cannot-recognize Error diagnostic exactly when the text is
nonempty, and clears the file's diagnostics when the text is empty. -/
theorem c10_validate_unknown_file (fileInfo : WorkspaceFile) (coll : DiagCollection) :
    (validateUnknownFile fileInfo coll).1.status = FileStatus.Validated ∧
    (fileInfo.text ≠ [] →
      collGet (validateUnknownFile fileInfo coll).2 fileInfo.fileUri =
        some [⟨validatorCreateRange 0 0,
          str "Cannot recognize whether this is a domain or problem: " ++
            firstNonCommentLine fileInfo.text,
          DiagnosticSeverity.Error⟩]) ∧
    (fileInfo.text = [] →
      collGet (validateUnknownFile fileInfo coll).2 fileInfo.fileUri = none) := by
  refine ⟨?_, ?_, ?_⟩
  · by_cases h : fileInfo.text = []
    · rw [validateUnknownFile_of_empty fileInfo coll h]
    · rw [validateUnknownFile_of_nonempty fileInfo coll h]
  · intro h
    rw [validateUnknownFile_of_nonempty fileInfo coll h]
    exact collGet_set _ _ _
  · intro h
    rw [validateUnknownFile_of_empty fileInfo coll h]
    exact collGet_delete _ _

/-- Concrete files for the C10 witness. -/
def c10FileNonempty : WorkspaceFile :=
  ⟨str "file:a.pddl", PddlFileKind.unknownPddl, FileStatus.Parsed,
   str "; comment\n(define bogus)"⟩

def c10FileEmpty : WorkspaceFile :=
  ⟨str "file:b.pddl", PddlFileKind.unknownPddl, FileStatus.Parsed, str ""⟩

def c10Coll : DiagCollection :=
  [(str "file:b.pddl", [⟨validatorCreateRange 0 0, str "old", DiagnosticSeverity.Error⟩])]

theorem c10_validate_unknown_file_witness :
    c10FileNonempty.text ≠ [] ∧
    collGet (validateUnknownFile c10FileNonempty c10Coll).2 c10FileNonempty.fileUri =
      some [⟨validatorCreateRange 0 0,
        str "Cannot recognize whether this is a domain or problem: " ++
          firstNonCommentLine c10FileNonempty.text,
        DiagnosticSeverity.Error⟩] ∧
    firstNonCommentLine c10FileNonempty.text = str "(define bogus)" ∧
    c10FileEmpty.text = [] ∧
    (validateUnknownFile c10FileEmpty c10Coll).1.status = FileStatus.Validated ∧
    collGet (validateUnknownFile c10FileEmpty c10Coll).2 c10FileEmpty.fileUri = none :=
  ⟨by decide,
   (c10_validate_unknown_file c10FileNonempty c10Coll).2.1 (by decide),
   rfl,
   rfl,
   (c10_validate_unknown_file c10FileEmpty c10Coll).1,
   (c10_validate_unknown_file c10FileEmpty c10Coll).2.2 rfl⟩

/-! ## PlanValidator.validatePlanAndReportDiagnostics: missing-file early failures -/

/-- A file in the plan's folder, as iterated by `folder.files.forEach`. -/
inductive FolderEntry where
  | problemEntry (p : ProblemFileRec)
  | domainEntry (d : DomainFileRec)
  | otherEntry (uri : List Char)
deriving DecidableEq, Repr

/-- The `folder.files.forEach` loop of `validatePlanAndReportDiagnostics`:
each problem file whose name case-insensitively equals the plan's referenced
problem name overwrites the previous candidate, so the LAST match wins. -/
def findProblemFile (files : List FolderEntry) (planProblemName : List Char) :
    Option ProblemFileRec :=
  files.foldl
    (fun acc f =>
      match f with
      | FolderEntry.problemEntry p =>
        if lowerEq p.name planProblemName then some p else acc
      | _ => acc)
    none

/-- Modelled from the spec: `PddlWorkspace.getDomainFileFor`
(common/src/workspace-model is not among the provided sources) — returns the
single domain whose name matches the problem's domain reference, and signals
missing or ambiguous matches by not returning a domain. -/
def wsGetDomainFileFor (domains : List DomainFileRec) (problemFile : ProblemFileRec) :
    Option DomainFileRec :=
  let matched := getDomainFilesFor domains problemFile
  if matched.length == 1 then matched.head? else none

/-- A callback invocation recorded by `validatePlanAndReportDiagnostics`:
`onSuccess(outcome.getDiagnostics())` or `onError(message)`. -/
inductive CallbackCall where
  | success (diags : List (List Char × List Diagnostic))
  | failure (message : List Char)
deriving DecidableEq, Repr

/-- The result of the pre-spawn phase of `validatePlanAndReportDiagnostics`. -/
inductive ValidatePlanStep where
  | earlyOutcome (o : PlanValidationOutcome)
  | proceed (d : DomainFileRec) (p : ProblemFileRec)
deriving DecidableEq, Repr

/-- `validatePlanAndReportDiagnostics` up to the external-process spawn: the
two missing-file cases return a failed outcome and invoke `onSuccess` with its
diagnostics; otherwise the validator is spawned with the matched domain and
problem. -/
def validatePlanAndReportDiagnosticsPre (planInfo : PlanInfo)
    (folderFiles : List FolderEntry) (domains : List DomainFileRec) :
    ValidatePlanStep × List CallbackCall :=
  match findProblemFile folderFiles planInfo.problemName with
  | none =>
    let outcome := PlanValidationOutcome.failed planInfo
      ⟨str "Error",
       str "No problem file with name \x27(problem " ++ planInfo.problemName ++
         str "\x27) and located in the same folder as the plan is not open in the editor."⟩
    (ValidatePlanStep.earlyOutcome outcome,
     [CallbackCall.success outcome.getDiagnostics])
  | some problemFileInfo =>
    match wsGetDomainFileFor domains problemFileInfo with
    | none =>
      let outcome := PlanValidationOutcome.failed planInfo
        ⟨str "Error",
         str "No domain file corresponding to problem \x27" ++ problemFileInfo.name ++
           str "\x27 and located in the same folder is open in the editor."⟩
      (ValidatePlanStep.earlyOutcome outcome,
       [CallbackCall.success outcome.getDiagnostics])
    | some domainFileInfo =>
      (ValidatePlanStep.proceed domainFileInfo problemFileInfo, [])

/-- C8: whenever no problem in the plan's folder matches the plan's referenced
problem name case-insensitively, or no domain file is found for the matched
problem, `validatePlanAndReportDiagnostics` returns a failed outcome with a
non-null error string and exactly one Error diagnostic at line 0, and invokes
`onSuccess` with that outcome's diagnostics — never `onError`. -/
theorem c8_missing_files_early_failure (planInfo : PlanInfo)
    (folderFiles : List FolderEntry) (domains : List DomainFileRec)
    (h : findProblemFile folderFiles planInfo.problemName = none ∨
      (∃ p, findProblemFile folderFiles planInfo.problemName = some p ∧
        wsGetDomainFileFor domains p = none)) :
    ∃ o, (validatePlanAndReportDiagnosticsPre planInfo folderFiles domains).1 =
        ValidatePlanStep.earlyOutcome o ∧
      o.error.isSome = true ∧
      (∃ msg, o.diagnostics = [createDiagnostic 0 msg DiagnosticSeverity.Error]) ∧
      (validatePlanAndReportDiagnosticsPre planInfo folderFiles domains).2 =
        [CallbackCall.success o.getDiagnostics] := by
  rcases h with h0 | ⟨p, hp, hd⟩
  · have he : validatePlanAndReportDiagnosticsPre planInfo folderFiles domains =
        (ValidatePlanStep.earlyOutcome (PlanValidationOutcome.failed planInfo
          ⟨str "Error",
           str "No problem file with name \x27(problem " ++ planInfo.problemName ++
             str "\x27) and located in the same folder as the plan is not open in the editor."⟩),
         [CallbackCall.success (PlanValidationOutcome.failed planInfo
          ⟨str "Error",
           str "No problem file with name \x27(problem " ++ planInfo.problemName ++
             str "\x27) and located in the same folder as the plan is not open in the editor."⟩).getDiagnostics]) := by
      simp only [validatePlanAndReportDiagnosticsPre, h0]
    rw [he]
    exact ⟨_, rfl, rfl, ⟨_, rfl⟩, rfl⟩
  · have he : validatePlanAndReportDiagnosticsPre planInfo folderFiles domains =
        (ValidatePlanStep.earlyOutcome (PlanValidationOutcome.failed planInfo
          ⟨str "Error",
           str "No domain file corresponding to problem \x27" ++ p.name ++
             str "\x27 and located in the same folder is open in the editor."⟩),
         [CallbackCall.success (PlanValidationOutcome.failed planInfo
          ⟨str "Error",
           str "No domain file corresponding to problem \x27" ++ p.name ++
             str "\x27 and located in the same folder is open in the editor."⟩).getDiagnostics]) := by
      simp only [validatePlanAndReportDiagnosticsPre, hp, hd]
    rw [he]
    exact ⟨_, rfl, rfl, ⟨_, rfl⟩, rfl⟩

/-- Concrete inputs for the C8 witness. -/
def c8Plan : PlanInfo := ⟨str "file:f/a.plan", str "transport", str "", []⟩

/-- A folder with no problem file at all. -/
def c8FolderNoProblem : List FolderEntry :=
  [FolderEntry.domainEntry ⟨str "d", str "file:f/d.pddl"⟩]

/-- A matching problem whose domain reference matches no open domain. -/
def c8Problem : ProblemFileRec :=
  ⟨str "transport", str "troll", str "file:f/p.pddl", FileStatus.Parsed⟩

def c8FolderWithProblem : List FolderEntry :=
  [FolderEntry.problemEntry c8Problem]

theorem c8_missing_files_early_failure_witness :
    (∃ o, (validatePlanAndReportDiagnosticsPre c8Plan c8FolderNoProblem []).1 =
        ValidatePlanStep.earlyOutcome o ∧
      o.error.isSome = true ∧
      (∃ msg, o.diagnostics = [createDiagnostic 0 msg DiagnosticSeverity.Error]) ∧
      (validatePlanAndReportDiagnosticsPre c8Plan c8FolderNoProblem []).2 =
        [CallbackCall.success o.getDiagnostics]) ∧
    (∃ o, (validatePlanAndReportDiagnosticsPre c8Plan c8FolderWithProblem []).1 =
        ValidatePlanStep.earlyOutcome o ∧
      o.error.isSome = true ∧
      (∃ msg, o.diagnostics = [createDiagnostic 0 msg DiagnosticSeverity.Error]) ∧
      (validatePlanAndReportDiagnosticsPre c8Plan c8FolderWithProblem []).2 =
        [CallbackCall.success o.getDiagnostics]) :=
  ⟨c8_missing_files_early_failure c8Plan c8FolderNoProblem [] (Or.inl rfl),
   c8_missing_files_early_failure c8Plan c8FolderWithProblem []
     (Or.inr ⟨c8Problem, rfl, rfl⟩)⟩

/-! ## TypeObjectMap (common/src/DomainInfo.ts; modelled from the spec and its
unit tests in the provided sources) -/

/-- Modelled from the spec: one entry of the type-object index — a type name
and its ordered, duplicate-free object list. -/
structure TypeObjects where
  type : List Char
  objects : List (List Char)
deriving DecidableEq, Repr

def TypeObjects.getObjects (t : TypeObjects) : List (List Char) := t.objects

/-- Modelled from the spec: `TypeObjectMap` — a map from type name to objects
(`common/src/DomainInfo.ts` is not among the provided sources; behaviour fixed
by spec section 4.3 and the `TypeObjectMap` unit tests). -/
structure TypeObjectMap where
  entries : List TypeObjects
deriving DecidableEq, Repr

/-- `map.length`: the number of types in the index. -/
def TypeObjectMap.length (m : TypeObjectMap) : ℕ := m.entries.length

/-- Insert one (type, object) pair: find the type's entry (case-insensitive),
append the object unless already present; create the entry if absent. -/
def addToEntries (t o : List Char) : List TypeObjects → List TypeObjects
  | [] => [⟨t, [o]⟩]
  | e :: rest =>
    if lowerEq e.type t then
      (if o ∈ e.objects then e else ⟨e.type, e.objects ++ [o]⟩) :: rest
    else
      e :: addToEntries t o rest

/-- `map.add(type, objectName)`. -/
def TypeObjectMap.add (m : TypeObjectMap) (t o : List Char) : TypeObjectMap :=
  ⟨addToEntries t o m.entries⟩

/-- `map.addAll(type, objectNames)`: adds each object in order. -/
def TypeObjectMap.addAll (m : TypeObjectMap) (t : List Char) (os : List (List Char)) :
    TypeObjectMap :=
  os.foldl (fun acc o => acc.add t o) m

/-- `map.getTypeOf(objectName)`: exact-case lookup of the entry owning an
object. -/
def TypeObjectMap.getTypeOf (m : TypeObjectMap) (o : List Char) : Option TypeObjects :=
  m.entries.find? (fun e => e.objects.contains o)

/-- `map.getTypeCaseInsensitive(typeName)`. -/
def TypeObjectMap.getTypeCaseInsensitive (m : TypeObjectMap) (t : List Char) :
    Option TypeObjects :=
  m.entries.find? (fun e => lowerEq e.type t)

/-- Whether a list of entries already holds the (type, object) pair. -/
def entriesHave (t o : List Char) (l : List TypeObjects) : Bool :=
  match l.find? (fun e => lowerEq e.type t) with
  | some e => decide (o ∈ e.objects)
  | none => false

/-- Whether the index already holds the (type, object) pair. -/
def TypeObjectMap.hasObject (m : TypeObjectMap) (t o : List Char) : Bool :=
  entriesHave t o m.entries

theorem lowerEq_refl (a : List Char) : lowerEq a a = true := by
  simp [lowerEq]

theorem addToEntries_idem (t o : List Char) (l : List TypeObjects) :
    addToEntries t o (addToEntries t o l) = addToEntries t o l := by
  induction l with
  | nil =>
    simp [addToEntries, lowerEq_refl]
  | cons e rest ih =>
    by_cases hle : lowerEq e.type t = true
    · by_cases hmem : o ∈ e.objects
      · simp [addToEntries, hle, hmem]
      · simp [addToEntries, hle, hmem]
    · simp [addToEntries, hle, ih]

theorem entriesHave_cons (t o : List Char) (e : TypeObjects) (rest : List TypeObjects) :
    entriesHave t o (e :: rest) =
      if lowerEq e.type t then decide (o ∈ e.objects) else entriesHave t o rest := by
  by_cases hle : lowerEq e.type t = true
  · simp [entriesHave, List.find?, hle]
  · simp only [Bool.not_eq_true] at hle
    simp [entriesHave, List.find?, hle]

theorem entriesHave_addToEntries (t o : List Char) (l : List TypeObjects) :
    entriesHave t o (addToEntries t o l) = true := by
  induction l with
  | nil =>
    simp [addToEntries, entriesHave_cons, lowerEq_refl, entriesHave]
  | cons e rest ih =>
    by_cases hle : lowerEq e.type t = true
    · by_cases hmem : o ∈ e.objects
      · simp [addToEntries, hle, hmem, entriesHave_cons]
      · simp [addToEntries, hle, hmem, entriesHave_cons]
    · simp [addToEntries, hle, entriesHave_cons, ih]

theorem addToEntries_of_have (t o : List Char) (l : List TypeObjects)
    (h : entriesHave t o l = true) : addToEntries t o l = l := by
  induction l with
  | nil => simp [entriesHave, List.find?] at h
  | cons e rest ih =>
    rw [entriesHave_cons] at h
    by_cases hle : lowerEq e.type t = true
    · rw [if_pos hle, decide_eq_true_eq] at h
      simp [addToEntries, hle, h]
    · rw [if_neg hle] at h
      simp [addToEntries, hle, ih h]

theorem entriesHave_mono (t o o2 : List Char) (l : List TypeObjects)
    (h : entriesHave t o l = true) :
    entriesHave t o (addToEntries t o2 l) = true := by
  induction l with
  | nil => simp [entriesHave, List.find?] at h
  | cons e rest ih =>
    rw [entriesHave_cons] at h
    by_cases hle : lowerEq e.type t = true
    · rw [if_pos hle, decide_eq_true_eq] at h
      by_cases hmem : o2 ∈ e.objects
      · simp [addToEntries, hle, hmem, entriesHave_cons, h]
      · simp [addToEntries, hle, hmem, entriesHave_cons]
        exact Or.inl h
    · rw [if_neg hle] at h
      simp [addToEntries, hle, entriesHave_cons, ih h]

theorem entriesHave_addAll (t o : List Char) (os : List (List Char)) (m : TypeObjectMap)
    (h : entriesHave t o m.entries = true) :
    entriesHave t o (m.addAll t os).entries = true := by
  induction os generalizing m with
  | nil => exact h
  | cons a os ih =>
    exact ih (m.add t a) (entriesHave_mono t o a m.entries h)

theorem addAll_mem_have (t : List Char) (os : List (List Char)) (m : TypeObjectMap) :
    ∀ o ∈ os, entriesHave t o (m.addAll t os).entries = true := by
  induction os generalizing m with
  | nil => intro o ho; exact absurd ho (List.not_mem_nil o)
  | cons a os ih =>
    intro o ho
    rcases List.mem_cons.mp ho with rfl | hos
    · exact entriesHave_addAll t o os (m.add t o) (entriesHave_addToEntries t o m.entries)
    · exact ih (m.add t a) o hos

theorem addAll_of_all_have (t : List Char) (os : List (List Char)) (m : TypeObjectMap)
    (h : ∀ o ∈ os, entriesHave t o m.entries = true) : m.addAll t os = m := by
  induction os generalizing m with
  | nil => rfl
  | cons a os ih =>
    have ha : m.add t a = m := by
      have := addToEntries_of_have t a m.entries (h a (List.mem_cons_self a os))
      exact congrArg TypeObjectMap.mk this
    show (m.add t a).addAll t os = m
    rw [ha]
    exact ih m (fun o ho => h o (List.mem_cons_of_mem a ho))

/-- C7: `add` and `addAll` are idempotent per (type, object) pair: repeating
an `add` with the same pair, or an `addAll` with the same object list, leaves
the index — its length included — exactly as after the first call. -/
theorem c7_type_object_map_idempotent (m : TypeObjectMap) (t o : List Char)
    (os : List (List Char)) :
    (m.add t o).add t o = m.add t o ∧
    ((m.add t o).add t o).length = (m.add t o).length ∧
    (m.add t o).addAll t [o] = m.add t o ∧
    (m.addAll t os).addAll t os = m.addAll t os := by
  have h1 : (m.add t o).add t o = m.add t o :=
    congrArg TypeObjectMap.mk (addToEntries_idem t o m.entries)
  refine ⟨h1, congrArg TypeObjectMap.length h1, ?_, ?_⟩
  · show (m.add t o).add t o = m.add t o
    exact h1
  · exact addAll_of_all_have t os (m.addAll t os) (addAll_mem_have t os m)
